import Mathlib

/-!
Shallow embedding of `src/controllers/user/me.rs` (crates.io user/email
controller slice): the identity store, the email verification state machine
(ChangeEmail / ConfirmEmail / ResendConfirmation), the profile assembler, and
the per-crate email-notification preference synchronizer.

Database tables are lists of rows; the database-generated random token and the
current timestamp are passed in as explicit parameters (they are the only
nondeterminism).  Diesel transactions are modelled by returning the untouched
store when the transaction closure fails (rollback) and the mutated store when
it returns Ok (commit).  The outbound mail sink is modelled by a boolean
`delivered`/`sendOk` parameter; `update_user` additionally returns the ordered
trace of events (database writes, the send call, the commit) so that ordering
relative to the commit point is provable.
-/

namespace UserMe

/-- Row of the `users` table (the columns this slice touches). -/
structure UserRow where
  id : Int
  gh_login : String
  email : Option String
  deriving DecidableEq, Repr

/-- Row of the `emails` table: one per user, with verification token,
token-generation timestamp and verified flag. -/
structure EmailRow where
  user_id : Int
  email : String
  token : String
  token_generated_at : Option Nat
  verified : Bool
  deriving DecidableEq, Repr

/-- Row of the `crate_owners` table (columns used by this slice). -/
structure CrateOwnerRow where
  crate_id : Int
  owner_id : Int
  owner_kind : Int
  email_notifications : Bool
  deriving DecidableEq, Repr

/-- `OwnerKind::User as i32` in the source. -/
def ownerKindUser : Int := 0

/-- The database state visible to this controller. -/
structure Store where
  users : List UserRow
  emails : List EmailRow
  crate_owners : List CrateOwnerRow
  deriving DecidableEq, Repr

/-- Result of a handler: `crashed` models a Rust panic (e.g. `unwrap` on
`None`), `err` a returned `CargoError`, `ok` the `{ok: true}` response. -/
inductive Outcome where
  | crashed
  | err (msg : String)
  | ok
  deriving DecidableEq, Repr

/-- Observable events of `update_user`, in execution order. -/
inductive Event where
  | dbUpdateUsers (login addr : String)
  | dbUpsertEmail (uid : Int) (addr : String)
  | send (addr login token : String) (delivered : Bool)
  | commit
  deriving DecidableEq, Repr

/-- Is this event the outbound confirmation-mail dispatch? -/
def Event.isSend : Event → Bool
  | .send _ _ _ _ => true
  | _ => false

/-- Is this event the transaction commit? -/
def Event.isCommit : Event → Bool
  | .commit => true
  | _ => false

/-- In this trace, does every dispatch happen only after a commit?  (True iff
no send event occurs before the first commit event.) -/
def dispatchOnlyAfterCommit (tr : List Event) : Bool :=
  (tr.takeWhile (fun e => !e.isCommit)).all (fun e => !e.isSend)

/-- Lookup of a user's email row (`emails` is keyed by `user_id`). -/
def findEmail (emails : List EmailRow) (uid : Int) : Option EmailRow :=
  emails.find? (fun r => r.user_id == uid)

/-- The fields of `GET /me` that concern email-verification state:
`emails::verified.nullable()`, `emails::email.nullable()` and
`emails::token_generated_at.nullable().is_not_null()` from the left join,
post-processed by `verified.unwrap_or(false)` and
`verified || verification_sent`. -/
structure MeView where
  email : Option String
  verified : Bool
  verification_sent : Bool
  deriving DecidableEq, Repr

/-- Embedding of the `me` handler (`GET /me`), lines 30-58 of the source,
restricted to the identity/verification columns the claims are about. -/
def me (st : Store) (u : UserRow) : MeView :=
  let er := findEmail st.emails u.id
  let verifiedCol : Option Bool := er.map EmailRow.verified
  let emailCol : Option String := er.map EmailRow.email
  let sentCol : Bool :=
    match er with
    | none => false
    | some r => r.token_generated_at.isSome
  let verified := verifiedCol.getD false
  { email := emailCol
    verified := verified
    verification_sent := verified || sentCol }

/-- `str::trim` from the source: drop leading and trailing whitespace. -/
def rustTrim (s : String) : String :=
  ⟨((s.data.dropWhile Char.isWhitespace).reverse.dropWhile Char.isWhitespace).reverse⟩

/-- Modelled from the spec: the database-side semantics of the `emails`
upsert issued by ChangeEmail (`insert_into(emails).values(&new_email)
.on_conflict(user_id).do_update().set(&new_email).returning(token)`).
The token default and the trigger that fires on an address change live in the
repository's migrations, which are not part of this slice; the spec says:
"upsert the Email row keyed by user — insert if absent, else replace address
and regenerate token, leaving verified=false", with a fresh token and current
timestamp.  `freshToken`/`now` stand for the database-generated values. -/
def upsertEmail (emails : List EmailRow) (uid : Int) (addr : String)
    (freshToken : String) (now : Nat) : List EmailRow :=
  if emails.any (fun r => r.user_id == uid) then
    emails.map (fun r =>
      if r.user_id == uid then
        { r with email := addr, token := freshToken,
                 token_generated_at := some now, verified := false }
      else r)
  else
    emails ++ [⟨uid, addr, freshToken, some now, false⟩]

/-- Embedding of the `update_user` handler (`PUT /user/:user_id`,
ChangeEmail), lines 110-179 of the source.  `body` is the parse result of
the request body (`none` = unparseable JSON, `some none` = email field
absent).  Returns the store, the event trace and the outcome.  The send call
`send_user_confirm_email` happens inside the transaction closure and its
result is discarded, so `delivered` is recorded in the trace but never
inspected. -/
def update_user (st : Store) (u : UserRow) (param : String)
    (body : Option (Option String)) (freshToken : String) (now : Nat)
    (delivered : Bool) : Store × List Event × Outcome :=
  if toString u.id != param then
    (st, [], .err "current user does not match requested user")
  else
    match body with
    | none => (st, [], .err "invalid json request")
    | some none => (st, [], .err "empty email rejected")
    | some (some raw) =>
      let user_email := rustTrim raw
      if user_email == "" then
        (st, [], .err "empty email rejected")
      else
        let users1 := st.users.map (fun w =>
          if w.gh_login == u.gh_login then { w with email := some user_email } else w)
        let emails1 := upsertEmail st.emails u.id user_email freshToken now
        ({ st with users := users1, emails := emails1 },
         [.dbUpdateUsers u.gh_login user_email,
          .dbUpsertEmail u.id user_email,
          .send user_email u.gh_login freshToken delivered,
          .commit],
         .ok)

/-- Embedding of the `confirm_user_email` handler (`PUT /confirm/:email_token`),
lines 182-201 of the source: set `verified = true` on every row whose token
matches; error iff zero rows matched. -/
def confirm_user_email (st : Store) (req_token : String) : Store × Outcome :=
  let updated_rows := (st.emails.filter (fun r => r.token == req_token)).length
  if updated_rows == 0 then
    (st, .err "Email belonging to token not found.")
  else
    ({ st with emails := st.emails.map (fun r =>
        if r.token == req_token then { r with verified := true } else r) },
     .ok)

/-- Value of an ASCII decimal digit. -/
def digitVal (c : Char) : Option Nat :=
  if '0' ≤ c ∧ c ≤ '9' then some (c.toNat - '0'.toNat) else none

/-- Accumulate a decimal digit string into a number; `none` on any
non-digit. -/
def parseNatDigits : List Char → Nat → Option Nat
  | [], acc => some acc
  | c :: rest, acc =>
    match digitVal c with
    | none => none
    | some d => parseNatDigits rest (acc * 10 + d)

/-- `str::parse::<i32>` from the source, as an `Option Int`: optional sign,
one or more decimal digits, i32 range check. -/
def parseI32 (s : String) : Option Int :=
  let check : Int → Option Int := fun n =>
    if -2147483648 ≤ n ∧ n ≤ 2147483647 then some n else none
  match s.data with
  | [] => none
  | '+' :: rest =>
    if rest.isEmpty then none else (parseNatDigits rest 0).bind (fun n => check (n : Int))
  | '-' :: rest =>
    if rest.isEmpty then none else (parseNatDigits rest 0).bind (fun n => check (-(n : Int)))
  | cs => (parseNatDigits cs 0).bind (fun n => check (n : Int))

/-- Modelled from the spec: `token.eq(sql("DEFAULT"))` draws a fresh random
token from the database column default, and the migration-side trigger stamps
`token_generated_at`; both live outside this slice.  The spec: "regenerate
the token for the user's existing Email row" with "a freshly generated token
and current timestamp". -/
def regenerateToken (r : EmailRow) (freshToken : String) (now : Nat) : EmailRow :=
  { r with token := freshToken, token_generated_at := some now }

/-- Embedding of the `regenerate_token_and_send` handler
(`PUT /user/:user_id/resend`), lines 204-232 of the source.
`params()["user_id"].parse::<i32>().ok().unwrap()` panics when the path
parameter is not a valid i32 (`Outcome.crashed`).  The token update and the
`try_send_user_confirm_email` call both run inside one transaction closure:
when the send fails the closure returns `Err`, so the transaction rolls back
and the store is returned unchanged. -/
def regenerate_token_and_send (st : Store) (u : UserRow) (param : String)
    (freshToken : String) (now : Nat) (sendOk : Bool) : Store × Outcome :=
  match parseI32 param with
  | none => (st, .crashed)
  | some name =>
    if u.id != name then
      (st, .err "current user does not match requested user")
    else
      match findEmail st.emails u.id with
      | none => (st, .err "Email could not be found")
      | some _ =>
        if sendOk then
          ({ st with emails := st.emails.map (fun r =>
              if r.user_id == u.id then regenerateToken r freshToken now else r) },
           .ok)
        else
          (st, .err "Error in sending email")

/-- Inserting one payload pair into the collected map (overwriting any
earlier value for the same key). -/
def collectStep (m : Int → Option Bool) (p : Int × Bool) : Int → Option Bool :=
  fun k => if k == p.1 then some p.2 else m k

/-- The `HashMap<i32, bool>` collected from the payload vector: later
occurrences of a key overwrite earlier ones. -/
def collectMap (l : List (Int × Bool)) : Int → Option Bool :=
  l.foldl collectStep (fun _ => none)

/-- Do two crate-owner rows agree on the conflict target
`(crate_id, owner_id, owner_kind)`? -/
def sameKey (a b : CrateOwnerRow) : Bool :=
  a.crate_id == b.crate_id && a.owner_id == b.owner_id && a.owner_kind == b.owner_kind

/-- The conflict-target key of a crate-owner row. -/
def keyOf (r : CrateOwnerRow) : Int × Int × Int :=
  (r.crate_id, r.owner_id, r.owner_kind)

/-- The `DO UPDATE SET email_notifications = excluded.email_notifications`
action applied to one stored row, for incoming row `c`. -/
def updRow (c r : CrateOwnerRow) : CrateOwnerRow :=
  if sameKey c r then { r with email_notifications := c.email_notifications } else r

/-- One row of the `INSERT ... ON CONFLICT (crate_id, owner_id, owner_kind)
DO UPDATE SET email_notifications = excluded.email_notifications`: update the
conflicting row if one exists, else insert. -/
def upsertStep (acc : List CrateOwnerRow) (c : CrateOwnerRow) : List CrateOwnerRow :=
  if acc.any (fun r => sameKey c r) then acc.map (updRow c) else acc ++ [c]

/-- The whole multi-row upsert statement. -/
def upsertOwners (rows cands : List CrateOwnerRow) : List CrateOwnerRow :=
  cands.foldl upsertStep rows

/-- The `to_insert` candidate set of `update_email_notifications`: the
caller's existing user-kind ownership rows, each taking the payload value for
its crate when present and its current stored value otherwise. -/
def toInsert (st : Store) (u : UserRow) (pairs : List (Int × Bool)) : List CrateOwnerRow :=
  (st.crate_owners.filter (fun r =>
      r.owner_kind == ownerKindUser && r.owner_id == u.id)).map (fun r =>
    { r with email_notifications :=
        ((collectMap pairs) r.crate_id).getD r.email_notifications })

/-- Embedding of the `update_email_notifications` handler
(`PUT /me/email_notifications`), lines 235-289 of the source.  `body` is the
parse result of the payload (`none` = unparseable JSON; pairs are
`(crate id, email_notifications)` in payload order).  The candidate set
`toInsert` is built from the caller's existing user-kind ownership rows. -/
def update_email_notifications (st : Store) (u : UserRow)
    (body : Option (List (Int × Bool))) : Store × Outcome :=
  match body with
  | none => (st, .err "invalid json request")
  | some pairs =>
    ({ st with crate_owners := upsertOwners st.crate_owners (toInsert st u pairs) }, .ok)

/-- A crate-owners table respecting the database uniqueness constraint on
`(crate_id, owner_id, owner_kind)`. -/
def keysNodup (rows : List CrateOwnerRow) : Prop :=
  (rows.map keyOf).Nodup

instance (rows : List CrateOwnerRow) : Decidable (keysNodup rows) :=
  List.nodupDecidable _

/-- Sequentially apply the ON CONFLICT update of each candidate row to a
single stored row (used to characterise the multi-row upsert pointwise). -/
def applyCands (cands : List CrateOwnerRow) (r : CrateOwnerRow) : CrateOwnerRow :=
  cands.foldl (fun x c => updRow c x) r

/-- The stored `email_notifications` value for a given conflict-target key,
if a row with that key exists. -/
def ownerPref (rows : List CrateOwnerRow) (k : Int × Int × Int) : Option Bool :=
  (rows.find? (fun r => keyOf r == k)).map CrateOwnerRow.email_notifications

/-- The per-row effect of a successful preference synchronization for acting
user `uid` with collected payload map `m`: rows owned by `uid` with user kind
take the payload value for their crate when present, every other row is left
alone. -/
def syncRow (uid : Int) (m : Int → Option Bool) (r : CrateOwnerRow) : CrateOwnerRow :=
  if r.owner_kind = ownerKindUser ∧ r.owner_id = uid then
    { r with email_notifications := (m r.crate_id).getD r.email_notifications }
  else r

/- Concrete fixtures used by witnesses and counterexamples. -/

/-- A user with id 1. -/
def uA : UserRow := ⟨1, "alice", none⟩

/-- A store where user 1 has an unverified email row with token "tok1" and
owns crates 10 and 11 (crate 10 also has a team owner). -/
def stA : Store :=
  { users := [uA]
    emails := [⟨1, "a@x", "tok1", some 0, false⟩]
    crate_owners := [⟨10, 1, 0, true⟩, ⟨11, 1, 0, false⟩, ⟨10, 2, 1, true⟩] }

/-- A store where user 1 has no email row. -/
def stB : Store :=
  { users := [uA], emails := [], crate_owners := [] }

/-! ### Generic list lemmas -/

/-- `find?` commutes with `map` when the predicate is invariant under the
mapped function. -/
theorem find?_map_of_inv {α β : Type} (f : α → β) (p : β → Bool) (q : α → Bool)
    (hpq : ∀ x, p (f x) = q x) (l : List α) :
    (l.map f).find? p = (l.find? q).map f := by
  induction l with
  | nil => rfl
  | cons a t ih =>
    rw [List.map_cons]
    cases hq : q a with
    | true =>
      rw [List.find?_cons_of_pos _ (by rw [hpq a]; exact hq),
        List.find?_cons_of_pos _ hq, Option.map_some']
    | false =>
      rw [List.find?_cons_of_neg _ (by rw [hpq a, hq]; exact Bool.false_ne_true),
        List.find?_cons_of_neg _ (by rw [hq]; exact Bool.false_ne_true), ih]

/-- `filter` commutes with `map` when the predicate is invariant under the
mapped function. -/
theorem filter_map_of_inv {α : Type} (f : α → α) (p : α → Bool)
    (hp : ∀ x, p (f x) = p x) (l : List α) :
    (l.map f).filter p = (l.filter p).map f := by
  induction l with
  | nil => rfl
  | cons a t ih =>
    rw [List.map_cons]
    cases hq : p a with
    | true => rw [List.filter_cons_of_pos (by rw [hp a]; exact hq),
        List.filter_cons_of_pos hq, List.map_cons, ih]
    | false => rw [List.filter_cons_of_neg (by rw [hp a, hq]; exact Bool.false_ne_true),
        List.filter_cons_of_neg (by rw [hq]; exact Bool.false_ne_true), ih]

/-! ### Key and row-update lemmas for the preference synchronizer -/

theorem sameKey_iff {a b : CrateOwnerRow} : sameKey a b = true ↔ keyOf a = keyOf b := by
  simp [sameKey, keyOf, Prod.ext_iff, and_assoc]

theorem sameKey_self (a : CrateOwnerRow) : sameKey a a = true := by
  simp [sameKey]

theorem sameKey_set_left (a b : CrateOwnerRow) (v : Bool) :
    sameKey { a with email_notifications := v } b = sameKey a b := rfl

theorem sameKey_set_right (a b : CrateOwnerRow) (v : Bool) :
    sameKey a { b with email_notifications := v } = sameKey a b := rfl

theorem set_en_self (r : CrateOwnerRow) :
    { r with email_notifications := r.email_notifications } = r := by
  cases r; rfl

theorem keyOf_updRow (c r : CrateOwnerRow) : keyOf (updRow c r) = keyOf r := by
  unfold updRow; split <;> rfl

theorem sameKey_updRow (a c r : CrateOwnerRow) : sameKey a (updRow c r) = sameKey a r := by
  unfold updRow; split <;> rfl

theorem keyOf_applyCands (cands : List CrateOwnerRow) (r : CrateOwnerRow) :
    keyOf (applyCands cands r) = keyOf r := by
  induction cands generalizing r with
  | nil => rfl
  | cons c cs ih =>
    show keyOf (applyCands cs (updRow c r)) = keyOf r
    rw [ih, keyOf_updRow]

theorem applyCands_of_no_match {cands : List CrateOwnerRow} {r : CrateOwnerRow}
    (h : ∀ c ∈ cands, sameKey c r = false) : applyCands cands r = r := by
  induction cands with
  | nil => rfl
  | cons c cs ih =>
    show applyCands cs (updRow c r) = r
    rw [updRow, if_neg (by rw [h c (List.mem_cons_self c cs)]; exact Bool.false_ne_true)]
    exact ih (fun c' hc' => h c' (List.mem_cons_of_mem c hc'))

theorem applyCands_of_fixpoint {cands : List CrateOwnerRow} {r : CrateOwnerRow}
    (h : ∀ c ∈ cands, sameKey c r = true →
      c.email_notifications = r.email_notifications) :
    applyCands cands r = r := by
  induction cands with
  | nil => rfl
  | cons c cs ih =>
    show applyCands cs (updRow c r) = r
    rw [updRow]
    cases hk : sameKey c r with
    | true =>
      rw [if_pos rfl, h c (List.mem_cons_self c cs) hk, set_en_self]
      exact ih (fun c' hc' => h c' (List.mem_cons_of_mem c hc'))
    | false =>
      rw [if_neg Bool.false_ne_true]
      exact ih (fun c' hc' => h c' (List.mem_cons_of_mem c hc'))

theorem applyCands_last {cands : List CrateOwnerRow} {r : CrateOwnerRow} {v : Bool}
    (hall : ∀ c ∈ cands, sameKey c r = true → c.email_notifications = v)
    (hex : ∃ c ∈ cands, sameKey c r = true) :
    applyCands cands r = { r with email_notifications := v } := by
  induction cands with
  | nil => exact absurd hex (by simp)
  | cons c cs ih =>
    show applyCands cs (updRow c r) = { r with email_notifications := v }
    rw [updRow]
    cases hk : sameKey c r with
    | true =>
      rw [if_pos rfl, hall c (List.mem_cons_self c cs) hk]
      exact applyCands_of_fixpoint (fun c' hc' hk' => by
        rw [sameKey_set_right] at hk'
        exact hall c' (List.mem_cons_of_mem c hc') hk')
    | false =>
      rw [if_neg Bool.false_ne_true]
      rcases hex with ⟨c', hc', hk'⟩
      rcases List.mem_cons.mp hc' with rfl | hc'
      · rw [hk] at hk'; exact absurd hk' Bool.false_ne_true
      · exact ih (fun c'' hc'' => hall c'' (List.mem_cons_of_mem c hc'')) ⟨c', hc', hk'⟩

theorem upsertStep_of_mem {acc : List CrateOwnerRow} {c : CrateOwnerRow}
    (h : ∃ r ∈ acc, sameKey c r = true) : upsertStep acc c = acc.map (updRow c) := by
  rw [upsertStep, if_pos (List.any_eq_true.mpr (by
    rcases h with ⟨r, hr, hk⟩; exact ⟨r, hr, hk⟩))]

theorem upsertOwners_eq_map (cands : List CrateOwnerRow) :
    ∀ acc : List CrateOwnerRow, (∀ c ∈ cands, ∃ r ∈ acc, sameKey c r = true) →
      upsertOwners acc cands = acc.map (applyCands cands) := by
  induction cands with
  | nil =>
    intro acc _
    show acc = List.map (applyCands []) acc
    symm
    exact List.map_id' acc
  | cons c cs ih =>
    intro acc h
    show upsertOwners (upsertStep acc c) cs = _
    rw [upsertStep_of_mem (h c (List.mem_cons_self c cs))]
    rw [ih (acc.map (updRow c)) (fun c' hc' => by
      rcases h c' (List.mem_cons_of_mem c hc') with ⟨r, hr, hk⟩
      exact ⟨updRow c r, List.mem_map_of_mem _ hr, by rw [sameKey_updRow]; exact hk⟩)]
    rw [List.map_map]
    rfl

theorem toInsert_key_in_rows (st : Store) (u : UserRow) (pairs : List (Int × Bool)) :
    ∀ c ∈ toInsert st u pairs, ∃ r ∈ st.crate_owners, sameKey c r = true := by
  intro c hc
  rcases List.mem_map.mp hc with ⟨r, hr, rfl⟩
  exact ⟨r, (List.mem_filter.mp hr).1, by rw [sameKey_set_left]; exact sameKey_self r⟩

theorem update_email_notifications_char (st : Store) (u : UserRow)
    (pairs : List (Int × Bool)) :
    update_email_notifications st u (some pairs)
      = ({ st with crate_owners :=
            st.crate_owners.map (applyCands (toInsert st u pairs)) }, .ok) := by
  show ({ st with crate_owners := upsertOwners st.crate_owners (toInsert st u pairs) },
      Outcome.ok) = _
  rw [upsertOwners_eq_map _ _ (toInsert_key_in_rows st u pairs)]

/-! ### Pointwise characterisation under the uniqueness constraint -/

theorem keyOf_syncRow (uid : Int) (m : Int → Option Bool) (r : CrateOwnerRow) :
    keyOf (syncRow uid m r) = keyOf r := by
  unfold syncRow; split <;> rfl

theorem inj_keys {rows : List CrateOwnerRow} (hnd : keysNodup rows)
    {a b : CrateOwnerRow} (ha : a ∈ rows) (hb : b ∈ rows) (hk : keyOf a = keyOf b) :
    a = b :=
  List.inj_on_of_nodup_map (hnd : (rows.map keyOf).Nodup) ha hb hk

theorem toInsert_no_match {st : Store} {u : UserRow} {pairs : List (Int × Bool)}
    {r : CrateOwnerRow}
    (hno : ¬(r.owner_kind = ownerKindUser ∧ r.owner_id = u.id)) :
    ∀ c ∈ toInsert st u pairs, sameKey c r = false := by
  intro c hc
  rcases List.mem_map.mp hc with ⟨r', hr', rfl⟩
  rw [sameKey_set_left]
  cases hk : sameKey r' r with
  | false => rfl
  | true =>
    exfalso
    have h3 : r'.crate_id = r.crate_id ∧ r'.owner_id = r.owner_id ∧
        r'.owner_kind = r.owner_kind := by
      simpa [keyOf, Prod.ext_iff] using sameKey_iff.mp hk
    have h4 : r'.owner_kind = ownerKindUser ∧ r'.owner_id = u.id := by
      simpa using (List.mem_filter.mp hr').2
    exact hno ⟨h3.2.2 ▸ h4.1, h3.2.1 ▸ h4.2⟩

theorem applyCands_toInsert (st : Store) (u : UserRow) (pairs : List (Int × Bool))
    (hnd : keysNodup st.crate_owners) {r : CrateOwnerRow} (hr : r ∈ st.crate_owners) :
    applyCands (toInsert st u pairs) r = syncRow u.id (collectMap pairs) r := by
  by_cases hp : r.owner_kind = ownerKindUser ∧ r.owner_id = u.id
  · rw [syncRow, if_pos hp]
    apply applyCands_last
    · intro c hc hk
      rcases List.mem_map.mp hc with ⟨r', hr', rfl⟩
      rw [sameKey_set_left] at hk
      have heq : r' = r :=
        inj_keys hnd (List.mem_filter.mp hr').1 hr (sameKey_iff.mp hk)
      subst heq
      rfl
    · refine ⟨{ r with email_notifications :=
          ((collectMap pairs) r.crate_id).getD r.email_notifications }, ?_, ?_⟩
      · exact List.mem_map.mpr ⟨r,
          List.mem_filter.mpr ⟨hr, by simp [hp.1, hp.2]⟩, rfl⟩
      · rw [sameKey_set_left]; exact sameKey_self r
  · rw [syncRow, if_neg hp]
    exact applyCands_of_no_match (toInsert_no_match hp)

theorem update_email_notifications_eq (st : Store) (u : UserRow)
    (pairs : List (Int × Bool)) (hnd : keysNodup st.crate_owners) :
    update_email_notifications st u (some pairs)
      = ({ st with crate_owners :=
            st.crate_owners.map (syncRow u.id (collectMap pairs)) }, .ok) := by
  rw [update_email_notifications_char]
  have hm : st.crate_owners.map (applyCands (toInsert st u pairs))
      = st.crate_owners.map (syncRow u.id (collectMap pairs)) :=
    List.map_congr_left (fun r hr => applyCands_toInsert st u pairs hnd hr)
  rw [hm]

theorem find?_key_nodup {rows : List CrateOwnerRow} (hnd : keysNodup rows)
    {r : CrateOwnerRow} (hr : r ∈ rows) :
    rows.find? (fun x => keyOf x == keyOf r) = some r := by
  have hs : (rows.find? (fun x => keyOf x == keyOf r)).isSome :=
    List.find?_isSome.mpr ⟨r, hr, by simp⟩
  rcases Option.isSome_iff_exists.mp hs with ⟨x, hx⟩
  have hpx := List.find?_some hx
  have hxr : x = r := inj_keys hnd (List.mem_of_find?_eq_some hx) hr (by simpa using hpx)
  rw [hx, hxr]

theorem ownerPref_self {rows : List CrateOwnerRow} (hnd : keysNodup rows)
    {r : CrateOwnerRow} (hr : r ∈ rows) :
    ownerPref rows (keyOf r) = some r.email_notifications := by
  rw [ownerPref, find?_key_nodup hnd hr, Option.map_some']

theorem ownerPref_update (st : Store) (u : UserRow) (pairs : List (Int × Bool))
    (hnd : keysNodup st.crate_owners) {r : CrateOwnerRow} (hr : r ∈ st.crate_owners) :
    ownerPref (update_email_notifications st u (some pairs)).1.crate_owners (keyOf r)
      = some ((syncRow u.id (collectMap pairs) r).email_notifications) := by
  rw [update_email_notifications_eq st u pairs hnd]
  show ownerPref (st.crate_owners.map (syncRow u.id (collectMap pairs))) (keyOf r) = _
  rw [ownerPref, find?_map_of_inv (syncRow u.id (collectMap pairs)) _
    (fun x => keyOf x == keyOf r) (fun x => by rw [keyOf_syncRow]),
    find?_key_nodup hnd hr, Option.map_some', Option.map_some']

/-! ### Collected-map lemmas -/

theorem collectFold_of_absent {k : Int} :
    ∀ (l : List (Int × Bool)) (m0 : Int → Option Bool), (∀ q ∈ l, q.1 ≠ k) →
      (l.foldl collectStep m0) k = m0 k := by
  intro l
  induction l with
  | nil => intro m0 _; rfl
  | cons p t ih =>
    intro m0 h
    rw [List.foldl_cons, ih _ (fun q hq => h q (List.mem_cons_of_mem p hq))]
    have hne : k ≠ p.1 := Ne.symm (h p (List.mem_cons_self p t))
    simp [collectStep, hne]

theorem collectMap_absent {k : Int} {l : List (Int × Bool)}
    (h : ∀ q ∈ l, q.1 ≠ k) : collectMap l k = none :=
  collectFold_of_absent l _ h

theorem collectMap_last {k : Int} {b : Bool} (l1 l2 : List (Int × Bool))
    (h : ∀ q ∈ l2, q.1 ≠ k) : collectMap (l1 ++ (k, b) :: l2) k = some b := by
  rw [collectMap, List.foldl_append, List.foldl_cons,
    collectFold_of_absent l2 _ h]
  simp [collectStep]

/-- The user-kind ownership row of user 1 for crate 11 in `stA`. -/
def row11 : CrateOwnerRow := ⟨11, 1, 0, false⟩

/-- The user-kind ownership row of user 1 for crate 10 in `stA`. -/
def row10 : CrateOwnerRow := ⟨10, 1, 0, true⟩

/-- The team ownership row for crate 10 in `stA`. -/
def rowTeam : CrateOwnerRow := ⟨10, 2, 1, true⟩

theorem syncRow_idem (uid : Int) (m : Int → Option Bool) (r : CrateOwnerRow) :
    syncRow uid m (syncRow uid m r) = syncRow uid m r := by
  rcases r with ⟨cid, oid, okind, en⟩
  by_cases hp : okind = ownerKindUser ∧ oid = uid
  · simp only [syncRow, hp.1, hp.2, and_self, if_true, true_and]
    cases hm : m cid <;> simp [hm]
  · simp [syncRow, hp]

theorem keysNodup_map_syncRow {rows : List CrateOwnerRow} (hnd : keysNodup rows)
    (uid : Int) (m : Int → Option Bool) : keysNodup (rows.map (syncRow uid m)) := by
  show ((rows.map (syncRow uid m)).map keyOf).Nodup
  have hco : keyOf ∘ syncRow uid m = keyOf := funext (fun r => keyOf_syncRow uid m r)
  rw [List.map_map, hco]
  exact hnd

/-! ### Claim theorems for the preference synchronizer -/

/-- C4: for every acting user and every well-formed (crate id, boolean)
payload, running `update_email_notifications` twice in a row produces
exactly the same store and outcome as running it once (idempotence), given
the database uniqueness constraint on (crate_id, owner_id, owner_kind). -/
theorem C4_theorem (st : Store) (u : UserRow) (pairs : List (Int × Bool))
    (hnd : keysNodup st.crate_owners) :
    update_email_notifications
        (update_email_notifications st u (some pairs)).1 u (some pairs)
      = update_email_notifications st u (some pairs) := by
  rw [update_email_notifications_eq st u pairs hnd]
  dsimp only
  rw [update_email_notifications_eq _ u pairs
    (keysNodup_map_syncRow hnd u.id (collectMap pairs))]
  dsimp only
  have h3 : List.map (syncRow u.id (collectMap pairs) ∘ syncRow u.id (collectMap pairs))
      st.crate_owners = List.map (syncRow u.id (collectMap pairs)) st.crate_owners :=
    List.map_congr_left (fun r _ => syncRow_idem u.id (collectMap pairs) r)
  rw [List.map_map, h3]

/-- C4 witness: a concrete run on `stA` discharging the uniqueness
hypothesis. -/
theorem C4_witness :
    keysNodup stA.crate_owners ∧
    update_email_notifications
        (update_email_notifications stA uA (some [(10, false)])).1 uA (some [(10, false)])
      = update_email_notifications stA uA (some [(10, false)]) :=
  ⟨by decide, C4_theorem stA uA [(10, false)] (by decide)⟩

/-- C5: an owned crate whose id is absent from the payload keeps its stored
`email_notifications` value (pass-through, not reset to a default). -/
theorem C5_theorem (st : Store) (u : UserRow) (pairs : List (Int × Bool))
    (hnd : keysNodup st.crate_owners) (r : CrateOwnerRow) (hr : r ∈ st.crate_owners)
    (hk : r.owner_kind = ownerKindUser) (ho : r.owner_id = u.id)
    (habs : ∀ q ∈ pairs, q.1 ≠ r.crate_id) :
    ownerPref (update_email_notifications st u (some pairs)).1.crate_owners (keyOf r)
      = ownerPref st.crate_owners (keyOf r) := by
  rw [ownerPref_update st u pairs hnd hr, ownerPref_self hnd hr]
  congr 1
  rw [syncRow, if_pos ⟨hk, ho⟩]
  show (collectMap pairs r.crate_id).getD r.email_notifications = _
  rw [collectMap_absent habs]
  rfl

/-- C5 witness: crate 11 is owned by user 1 and absent from the payload
`[(10, false)]`; its stored value is unchanged. -/
theorem C5_witness :
    keysNodup stA.crate_owners ∧
    row11 ∈ stA.crate_owners ∧
    ownerPref (update_email_notifications stA uA (some [(10, false)])).1.crate_owners
        (keyOf row11)
      = ownerPref stA.crate_owners (keyOf row11) :=
  ⟨by decide, by decide,
    C5_theorem stA uA [(10, false)] (by decide) row11 (by decide) rfl rfl
      (by intro q hq; fin_cases hq; decide)⟩

/-- C6: the preference synchronizer returns ok, creates no ownership row
(the multiset of conflict-target keys is unchanged), never touches the
`users`/`emails` tables, and leaves every row that is not a user-kind row of
the acting user exactly as it was — so payload entries for crates the user
does not own are silently ignored. -/
theorem C6_theorem (st : Store) (u : UserRow) (pairs : List (Int × Bool)) :
    (update_email_notifications st u (some pairs)).2 = Outcome.ok ∧
    (update_email_notifications st u (some pairs)).1.crate_owners.map keyOf
      = st.crate_owners.map keyOf ∧
    (update_email_notifications st u (some pairs)).1.users = st.users ∧
    (update_email_notifications st u (some pairs)).1.emails = st.emails ∧
    ∀ i : Nat, ∀ r : CrateOwnerRow, st.crate_owners[i]? = some r →
      ¬(r.owner_kind = ownerKindUser ∧ r.owner_id = u.id) →
      (update_email_notifications st u (some pairs)).1.crate_owners[i]? = some r := by
  rw [update_email_notifications_char]
  refine ⟨rfl, ?_, rfl, rfl, ?_⟩
  · show (st.crate_owners.map (applyCands (toInsert st u pairs))).map keyOf
      = st.crate_owners.map keyOf
    rw [List.map_map]
    exact List.map_congr_left (fun r _ => keyOf_applyCands _ r)
  · intro i r hi hno
    show (st.crate_owners.map (applyCands (toInsert st u pairs)))[i]? = some r
    rw [List.getElem?_map, hi, Option.map_some']
    rw [applyCands_of_no_match (toInsert_no_match hno)]

/-- C6 witness: the payload names crate 99 (unowned) and crate 10 (also
team-owned); no row is created, the team row at index 2 is untouched. -/
theorem C6_witness :
    (update_email_notifications stA uA (some [(99, true), (10, false)])).2 = Outcome.ok ∧
    (update_email_notifications stA uA
        (some [(99, true), (10, false)])).1.crate_owners.map keyOf
      = stA.crate_owners.map keyOf ∧
    (update_email_notifications stA uA
        (some [(99, true), (10, false)])).1.crate_owners[2]?
      = some rowTeam := by
  have h := C6_theorem stA uA [(99, true), (10, false)]
  exact ⟨h.1, h.2.1, h.2.2.2.2 2 rowTeam (by decide) (by decide)⟩

/-- C10: when the payload lists the same crate id more than once, the
operation still succeeds, the collected map holds the boolean of the last
occurrence, and that boolean is the one applied to the owned row. -/
theorem C10_theorem (st : Store) (u : UserRow) (l1 l2 : List (Int × Bool))
    (k : Int) (b1 b2 : Bool) (hnd : keysNodup st.crate_owners)
    (hlast : ∀ q ∈ l2, q.1 ≠ k) (r : CrateOwnerRow) (hr : r ∈ st.crate_owners)
    (hk : r.owner_kind = ownerKindUser) (ho : r.owner_id = u.id)
    (hc : r.crate_id = k) :
    (update_email_notifications st u (some (l1 ++ (k, b1) :: (k, b2) :: l2))).2
      = Outcome.ok ∧
    collectMap (l1 ++ (k, b1) :: (k, b2) :: l2) k = some b2 ∧
    ownerPref
        (update_email_notifications st u
          (some (l1 ++ (k, b1) :: (k, b2) :: l2))).1.crate_owners (keyOf r)
      = some b2 := by
  have hsplit : l1 ++ (k, b1) :: (k, b2) :: l2 = (l1 ++ [(k, b1)]) ++ (k, b2) :: l2 := by
    simp
  have hcm : collectMap (l1 ++ (k, b1) :: (k, b2) :: l2) k = some b2 := by
    rw [hsplit]
    exact collectMap_last (l1 ++ [(k, b1)]) l2 hlast
  refine ⟨rfl, hcm, ?_⟩
  rw [ownerPref_update st u _ hnd hr]
  congr 1
  rw [syncRow, if_pos ⟨hk, ho⟩]
  show (collectMap (l1 ++ (k, b1) :: (k, b2) :: l2) r.crate_id).getD
      r.email_notifications = b2
  rw [hc, hcm]
  rfl

/-- C10 witness: payload `[(10, true), (10, false)]` on `stA`; the last
occurrence wins and is applied to the owned row for crate 10. -/
theorem C10_witness :
    keysNodup stA.crate_owners ∧
    collectMap ([] ++ (10, true) :: (10, false) :: []) 10 = some false ∧
    ownerPref
        (update_email_notifications stA uA
          (some ([] ++ (10, true) :: (10, false) :: []))).1.crate_owners
        (keyOf row10)
      = some false :=
  ⟨by decide,
    (C10_theorem stA uA [] [] 10 true false (by decide) (by intro q hq; cases hq)
      row10 (by decide) rfl rfl rfl).2.1,
    (C10_theorem stA uA [] [] 10 true false (by decide) (by intro q hq; cases hq)
      row10 (by decide) rfl rfl rfl).2.2⟩

/-! ### ConfirmEmail idempotence -/

/-- The email row of user 1 in `stA`. -/
def eA : EmailRow := ⟨1, "a@x", "tok1", some 0, false⟩

/-- `stA` after user 1's email row has been verified. -/
def stA1 : Store := { stA with emails := [⟨1, "a@x", "tok1", some 0, true⟩] }

/-- C7: ConfirmEmail is idempotent — if confirming token `t` succeeded and
produced store `st1`, confirming the same token again succeeds and leaves
`st1` unchanged (the token is not rotated on confirmation, and setting
`verified = true` twice is the same as setting it once). -/
theorem C7_theorem (st : Store) (t : String) (st1 : Store)
    (h : confirm_user_email st t = (st1, Outcome.ok)) :
    confirm_user_email st1 t = (st1, Outcome.ok) := by
  by_cases h0 : (((st.emails.filter (fun r => r.token == t)).length == 0) = true)
  · rw [confirm_user_email, if_pos h0] at h
    exact absurd (congrArg Prod.snd h) (by simp)
  · rw [confirm_user_email, if_neg h0] at h
    have hst1 : ({ st with emails := st.emails.map (fun r =>
        if r.token == t then { r with verified := true } else r) } : Store) = st1 :=
      congrArg Prod.fst h
    have hinv : ∀ x : EmailRow,
        (((if x.token == t then { x with verified := true } else x) :
            EmailRow).token == t) = (x.token == t) := fun x => by
      cases hx : x.token == t <;> simp [hx]
    have hff : ∀ x : EmailRow,
        (fun r : EmailRow => if r.token == t then { r with verified := true } else r)
          ((fun r : EmailRow => if r.token == t then { r with verified := true } else r) x)
        = (fun r : EmailRow =>
            if r.token == t then { r with verified := true } else r) x := fun x => by
      cases hx : x.token == t <;> simp [hx]
    subst hst1
    rw [confirm_user_email]
    dsimp only
    rw [filter_map_of_inv _ _ hinv st.emails, List.length_map, if_neg h0]
    rw [List.map_map]
    have hmm : List.map ((fun r : EmailRow =>
          if r.token == t then { r with verified := true } else r) ∘ (fun r : EmailRow =>
          if r.token == t then { r with verified := true } else r)) st.emails
        = List.map (fun r : EmailRow =>
          if r.token == t then { r with verified := true } else r) st.emails :=
      List.map_congr_left (fun x _ => hff x)
    rw [hmm]

/-- C7 witness: confirming "tok1" on `stA` succeeds giving `stA1`; confirming
again on `stA1` gives `stA1` again. -/
theorem C7_witness :
    confirm_user_email stA "tok1" = (stA1, Outcome.ok) ∧
    confirm_user_email stA1 "tok1" = (stA1, Outcome.ok) :=
  ⟨by decide, C7_theorem stA "tok1" stA1 (by decide)⟩

/-! ### Profile assembly -/

/-- C8: the profile reports `verified = false` when the user has no email
row, and reports `verification_sent = true` exactly when `verified` is true
or a token-generation timestamp exists on the email row. -/
theorem C8_theorem (st : Store) (u : UserRow) :
    (findEmail st.emails u.id = none → (me st u).verified = false) ∧
    ((me st u).verification_sent = true ↔
      (me st u).verified = true ∨
        ∃ r, findEmail st.emails u.id = some r ∧ r.token_generated_at.isSome = true) := by
  cases her : findEmail st.emails u.id with
  | none =>
    constructor
    · intro _; simp [me, her]
    · simp [me, her]
  | some r =>
    constructor
    · intro hno; cases hno
    · simp [me, her, Bool.or_eq_true]

/-- C8 witness: on a store with no email row the profile reports
`verified = false`. -/
theorem C8_witness :
    findEmail stB.emails uA.id = none ∧ (me stB uA).verified = false :=
  ⟨by decide, (C8_theorem stB uA).1 (by decide)⟩

/-! ### ChangeEmail -/

/-- Characterisation of a successful `update_user` run: matching user id and
a non-empty trimmed address give the committed state change, the full event
trace, and the ok outcome. -/
theorem update_user_success (st : Store) (u : UserRow) (raw freshToken : String)
    (now : Nat) (delivered : Bool) (hne : ¬(rustTrim raw == "") = true) :
    update_user st u (toString u.id) (some (some raw)) freshToken now delivered
      = ({ st with
            users := st.users.map (fun w =>
              if w.gh_login == u.gh_login then
                { w with email := some (rustTrim raw) } else w),
            emails := upsertEmail st.emails u.id (rustTrim raw) freshToken now },
         [.dbUpdateUsers u.gh_login (rustTrim raw),
          .dbUpsertEmail u.id (rustTrim raw),
          .send (rustTrim raw) u.gh_login freshToken delivered,
          .commit],
         .ok) := by
  rw [update_user, bne_self_eq_false, if_neg Bool.false_ne_true]
  dsimp only
  rw [if_neg hne]

/-- The upsert on an existing email row rewrites it in place: new address,
fresh token, current timestamp, `verified = false`. -/
theorem findEmail_upsertEmail_existing (emails : List EmailRow) (uid : Int)
    (addr freshToken : String) (now : Nat) (old : EmailRow)
    (hrow : findEmail emails uid = some old) :
    findEmail (upsertEmail emails uid addr freshToken now) uid
      = some { user_id := old.user_id, email := addr, token := freshToken,
               token_generated_at := some now, verified := false } := by
  have hmem : old ∈ emails := List.mem_of_find?_eq_some hrow
  have hp := List.find?_some hrow
  rw [upsertEmail, if_pos (List.any_eq_true.mpr ⟨old, hmem, hp⟩)]
  rw [findEmail, find?_map_of_inv _ _ (fun r => r.user_id == uid) (fun r => by
    cases hx : r.user_id == uid <;> simp [hx])]
  rw [show emails.find? (fun r => r.user_id == uid) = some old from hrow,
    Option.map_some']
  simp [hp]

/-- C3: a successful ChangeEmail for a user with an existing email row, to a
different address, commits a row with the new address and a fresh token and
`verified = false`; the old token is no longer stored. -/
theorem C3_theorem (st : Store) (u : UserRow) (raw freshToken : String) (now : Nat)
    (delivered : Bool) (old : EmailRow)
    (hrow : findEmail st.emails u.id = some old)
    (hne : ¬(rustTrim raw == "") = true)
    (_hdiff : rustTrim raw ≠ old.email)
    (hfresh : freshToken ≠ old.token) :
    (update_user st u (toString u.id) (some (some raw)) freshToken now
        delivered).2.2 = Outcome.ok ∧
    findEmail (update_user st u (toString u.id) (some (some raw)) freshToken now
          delivered).1.emails u.id
      = some { user_id := old.user_id, email := rustTrim raw, token := freshToken,
               token_generated_at := some now, verified := false } ∧
    ∀ r, findEmail (update_user st u (toString u.id) (some (some raw)) freshToken
          now delivered).1.emails u.id = some r → r.token ≠ old.token := by
  rw [update_user_success st u raw freshToken now delivered hne]
  dsimp only
  have hfind := findEmail_upsertEmail_existing st.emails u.id (rustTrim raw)
    freshToken now old hrow
  refine ⟨rfl, hfind, ?_⟩
  intro r hr
  rw [hfind] at hr
  cases hr
  exact hfresh

/-- C3 witness: changing user 1's address from "a@x" to "b@y" (with
whitespace trimmed) rewrites the row with the fresh token "tok9" and
`verified = false`. -/
theorem C3_witness :
    findEmail stA.emails uA.id = some eA ∧
    ¬(rustTrim " b@y " == "") = true ∧
    rustTrim " b@y " ≠ eA.email ∧
    "tok9" ≠ eA.token ∧
    (update_user stA uA (toString uA.id) (some (some " b@y ")) "tok9" 7
        true).2.2 = Outcome.ok ∧
    findEmail (update_user stA uA (toString uA.id) (some (some " b@y ")) "tok9" 7
          true).1.emails uA.id
      = some { user_id := eA.user_id, email := rustTrim " b@y ", token := "tok9",
               token_generated_at := some 7, verified := false } :=
  ⟨by decide, by decide, by decide, by decide,
    (C3_theorem stA uA " b@y " "tok9" 7 true eA (by decide) (by decide)
      (by decide) (by decide)).1,
    (C3_theorem stA uA " b@y " "tok9" 7 true eA (by decide) (by decide)
      (by decide) (by decide)).2.1⟩

/-! ### ResendConfirmation and the transaction boundary -/

/-- C1 counterexample: on `stA` (user 1 has an email row with token "tok1"),
a resend whose dispatch fails returns an error, but the store is unchanged —
the regenerated token "tok2" was rolled back with the transaction, not
committed. -/
theorem C1_counterexample :
    (regenerate_token_and_send stA uA "1" "tok2" 5 false).2
      = Outcome.err "Error in sending email" ∧
    (regenerate_token_and_send stA uA "1" "tok2" 5 false).1 = stA ∧
    stA.emails.map EmailRow.token = ["tok1"] ∧ ("tok1" : String) ≠ "tok2" := by
  decide

/-- C1 (amended): for every user with an existing email row, when the
notification dispatch fails, ResendConfirmation returns an error to the
caller and the token regeneration is rolled back together with the
transaction — the store is returned unchanged (the send runs inside the
transaction closure, so its failure aborts the whole transaction). -/
theorem C1_theorem (st : Store) (u : UserRow) (param freshToken : String)
    (now : Nat) (name : Int) (hp : parseI32 param = some name)
    (hid : u.id = name) (row : EmailRow)
    (hrow : findEmail st.emails u.id = some row) :
    regenerate_token_and_send st u param freshToken now false
      = (st, Outcome.err "Error in sending email") := by
  subst hid
  rw [regenerate_token_and_send, hp]
  dsimp only
  rw [bne_self_eq_false, if_neg Bool.false_ne_true, hrow]
  rfl

/-- C1 witness: the amended theorem applied to `stA`. -/
theorem C1_witness :
    parseI32 "1" = some 1 ∧ uA.id = 1 ∧ findEmail stA.emails uA.id = some eA ∧
    regenerate_token_and_send stA uA "1" "tok2" 5 false
      = (stA, Outcome.err "Error in sending email") :=
  ⟨by decide, by decide, by decide,
    C1_theorem stA uA "1" "tok2" 5 1 (by decide) (by decide) eA (by decide)⟩

/-- C2 counterexample: a successful ChangeEmail on `stA` emits the dispatch
before the commit event — the notification is not dispatched only after the
transaction has committed. -/
theorem C2_counterexample :
    (update_user stA uA "1" (some (some "b@x")) "tok9" 7 true).2.2 = Outcome.ok ∧
    dispatchOnlyAfterCommit
        (update_user stA uA "1" (some (some "b@x")) "tok9" 7 true).2.1 = false := by
  decide

/-- C2 (amended): the ChangeEmail dispatch runs inside the transaction,
before the commit; but its outcome is never inspected, so the committed
state and the returned outcome are identical whether delivery succeeds or
fails — a dispatch failure never rolls back or aborts the state change. -/
theorem C2_theorem (st : Store) (u : UserRow) (param : String)
    (body : Option (Option String)) (freshToken : String) (now : Nat) :
    (update_user st u param body freshToken now true).1
      = (update_user st u param body freshToken now false).1 ∧
    (update_user st u param body freshToken now true).2.2
      = (update_user st u param body freshToken now false).2.2 ∧
    ((update_user st u param body freshToken now true).2.2 = Outcome.ok →
      (update_user st u param body freshToken now true).2.1.any Event.isCommit
        = true ∧
      dispatchOnlyAfterCommit
        (update_user st u param body freshToken now true).2.1 = false) := by
  by_cases h1 : (toString u.id != param) = true
  · simp only [update_user.eq_def, if_pos h1]
    simp
  · simp only [update_user.eq_def, if_neg h1]
    cases body with
    | none => simp
    | some ob =>
      cases ob with
      | none => simp
      | some raw =>
        dsimp only
        by_cases h2 : (rustTrim raw == "") = true
        · simp only [if_pos h2]
          simp
        · simp only [if_neg h2]
          simp [dispatchOnlyAfterCommit, Event.isCommit, Event.isSend]

/-- C2 witness: the amended theorem applied to a successful concrete run. -/
theorem C2_witness :
    (update_user stA uA "1" (some (some "c@y")) "tok3" 3 true).2.2 = Outcome.ok ∧
    ((update_user stA uA "1" (some (some "c@y")) "tok3" 3 true).2.1.any
        Event.isCommit = true ∧
      dispatchOnlyAfterCommit
        (update_user stA uA "1" (some (some "c@y")) "tok3" 3 true).2.1 = false) :=
  ⟨by decide, (C2_theorem stA uA "1" (some (some "c@y")) "tok3" 3).2.2 (by decide)⟩

/-- C9: a non-numeric `user_id` path parameter makes ResendConfirmation
panic (`parse::<i32>().ok().unwrap()` on `None`) instead of returning a
typed error — evaluating the handler at the failing input "abc" yields the
crash outcome. -/
theorem C9_theorem :
    regenerate_token_and_send stA uA "abc" "tok2" 5 true
      = (stA, Outcome.crashed) := by
  decide

end UserMe
